import Mathlib

/-!
Shallow embedding of the repeater utility from
examples/06-qa-repeater/qarepeater.py (Radformation/radmachine-api-examples).

The HTTP transport and the remote RadMachine service are external to the
repository; remote responses are therefore modelled as data (fields of Env
below), while every piece of client-side logic (URL handling, dictionary
construction, value decoding, payload construction, session replay
orchestration, rate limiting) is translated from the Python source.

Python dictionaries are modelled as association lists with Python dict
semantics (first occurrence keeps its position, assignment overwrites);
a failed subscript (KeyError) and failed HTTP steps are modelled with
Except.  JSON scalar values are modelled by PyVal.
-/

set_option autoImplicit false

-- Python/JSON scalar values as they appear in the API payloads handled by
-- qarepeater.py.  Numbers are modelled exactly (the script never computes
-- with them, it only moves them around and compares them).
inductive PyVal where
  | none : PyVal
  | num : ℚ → PyVal
  | str : String → PyVal
  | bool : Bool → PyVal
  deriving DecidableEq

-- Python truthiness (`if attachment_id:`) restricted to PyVal.
def pyTruthy : PyVal → Bool
  | PyVal.none => false
  | PyVal.num q => decide (q ≠ 0)
  | PyVal.str s => decide (s ≠ "")
  | PyVal.bool b => b

-- Python `==` on the values above (True == 1 and False == 0 hold in Python).
def pyEq : PyVal → PyVal → Bool
  | PyVal.none, PyVal.none => true
  | PyVal.num a, PyVal.num b => decide (a = b)
  | PyVal.str a, PyVal.str b => decide (a = b)
  | PyVal.bool a, PyVal.bool b => a == b
  | PyVal.bool a, PyVal.num b => decide ((if a then (1 : ℚ) else 0) = b)
  | PyVal.num a, PyVal.bool b => decide (a = (if b then (1 : ℚ) else 0))
  | _, _ => false

-- Python `str` applied to a bool (used for the Equal column of the table).
def pyBoolStr (b : Bool) : String :=
  if b then "True" else "False"

/-! String helpers: `str.strip("/")`, `str.endswith`, `str.rsplit("/")`. -/

-- Python `s.strip("/")`: drop every leading and trailing '/'.
def stripData (l : List Char) : List Char :=
  ((l.dropWhile (· = '/')).reverse.dropWhile (· = '/')).reverse

def stripSlashes (s : String) : String :=
  String.mk (stripData s.data)

-- Python `s.endswith(suffix)`.
def strEndsWith (s suf : String) : Bool :=
  List.isSuffixOf suf.data s.data

-- Python `s.rsplit("/")` (no maxsplit, so identical to `s.split("/")`).
def splitOnChar (c : Char) (l : List Char) : List (List Char) :=
  l.foldr
    (fun x acc =>
      match acc with
      | [] => [[x]]
      | a :: as => if x = c then [] :: (a :: as) else (x :: a) :: as)
    [[]]

-- qarepeater.object_id_from_url: `url.strip("/").rsplit("/")[-1]`.
def object_id_from_url (url : String) : String :=
  String.mk ((splitOnChar '/' (stripData url.data)).getLastD [])

/-! Model of `json.loads` on the scalar JSON text stored in json_value
fields.  JSON text handling is out of scope for the repository (it is the
standard library); this executable model covers null, booleans, decimal
numbers and quoted strings, and falls back to the raw text otherwise. -/

def digitsToNat? (l : List Char) : Option Nat :=
  if l = [] ∨ l.any (fun c => !c.isDigit) then Option.none
  else some (l.foldl (fun n c => 10 * n + (c.toNat - 48)) 0)

def parseDecimal? (s : String) : Option ℚ :=
  let l0 := s.data
  let neg := match l0 with
    | '-' :: _ => true
    | _ => false
  let l1 := if neg then l0.tail else l0
  let mag : Option ℚ :=
    match splitOnChar '.' l1 with
    | [ip] => (digitsToNat? ip).map (fun n => (n : ℚ))
    | [ip, fp] =>
      match digitsToNat? ip, digitsToNat? fp with
      | some a, some b => some ((a : ℚ) + (b : ℚ) / (10 : ℚ) ^ fp.length)
      | _, _ => Option.none
    | _ => Option.none
  mag.map (fun q => if neg then -q else q)

def jsonLoads (s : String) : PyVal :=
  if s = "null" then PyVal.none
  else if s = "true" then PyVal.bool true
  else if s = "false" then PyVal.bool false
  else
    match parseDecimal? s with
    | some q => PyVal.num q
    | Option.none =>
      if 2 ≤ s.length ∧ s.startsWith "\"" ∧ strEndsWith s "\"" then
        PyVal.str (String.mk ((s.data.drop 1).dropLast))
      else PyVal.str s

/-! Python dictionaries as association lists. -/

section Dict

variable {κ : Type} [DecidableEq κ] {α : Type}

-- Python `d[k] = v`: overwrite the first entry with the key, else append.
def dinsert : List (κ × α) → κ → α → List (κ × α)
  | [], k, v => [(k, v)]
  | p :: rest, k, v => if p.1 = k then (k, v) :: rest else p :: dinsert rest k v

-- Python `d.get(k)` / `d[k]` (subscript raises KeyError when this is none).
def dget? : List (κ × α) → κ → Option α
  | [], _ => Option.none
  | p :: rest, k => if p.1 = k then some p.2 else dget? rest k

theorem dget?_dinsert (d : List (κ × α)) (k k' : κ) (v : α) :
    dget? (dinsert d k v) k' = if k = k' then some v else dget? d k' := by
  induction d with
  | nil => simp only [dinsert, dget?]
  | cons p rest ih =>
    by_cases hp : p.1 = k
    · by_cases h : k = k'
      · simp only [dinsert, if_pos hp, dget?, if_pos h]
      · have hp' : ¬ p.1 = k' := by rw [hp]; exact h
        simp only [dinsert, if_pos hp, dget?, if_neg h, if_neg hp']
    · by_cases h : k = k'
      · have hp' : ¬ p.1 = k' := by rw [← h]; exact hp
        simp only [dinsert, if_neg hp, dget?, if_neg hp', ih, if_pos h]
      · simp only [dinsert, if_neg hp, dget?, ih, if_neg h]

theorem mem_dinsert {d : List (κ × α)} {k : κ} {v : α} {x : κ × α}
    (hx : x ∈ dinsert d k v) : x ∈ d ∨ x = (k, v) := by
  induction d with
  | nil =>
    simp only [dinsert, List.mem_singleton] at hx
    exact Or.inr hx
  | cons p rest ih =>
    by_cases hp : p.1 = k
    · simp only [dinsert, if_pos hp, List.mem_cons] at hx
      rcases hx with h | h
      · exact Or.inr h
      · exact Or.inl (List.mem_cons_of_mem _ h)
    · simp only [dinsert, if_neg hp, List.mem_cons] at hx
      rcases hx with h | h
      · exact Or.inl (h ▸ List.mem_cons_self _ _)
      · rcases ih h with h' | h'
        · exact Or.inl (List.mem_cons_of_mem _ h')
        · exact Or.inr h'

theorem dget?_mem {d : List (κ × α)} {k : κ} {v : α}
    (h : dget? d k = some v) : (k, v) ∈ d := by
  induction d with
  | nil => simp [dget?] at h
  | cons p rest ih =>
    by_cases hp : p.1 = k
    · simp only [dget?, if_pos hp, Option.some.injEq] at h
      have hkv : (k, v) = p := by
        rw [Prod.ext_iff]
        exact ⟨hp.symm, h.symm⟩
      rw [hkv]
      exact List.mem_cons_self _ _
    · simp only [dget?, if_neg hp] at h
      exact List.mem_cons_of_mem _ (ih h)

theorem dget?_none_of_not_mem {d : List (κ × α)} {k : κ}
    (h : k ∉ d.map Prod.fst) : dget? d k = Option.none := by
  induction d with
  | nil => simp [dget?]
  | cons p rest ih =>
    simp only [List.map_cons, List.mem_cons] at h
    push_neg at h
    have hp : ¬ p.1 = k := fun he => h.1 he.symm
    simp only [dget?, if_neg hp]
    exact ih h.2

theorem dget?_isSome_of_mem {d : List (κ × α)} {k : κ}
    (h : k ∈ d.map Prod.fst) : (dget? d k).isSome := by
  induction d with
  | nil => simp at h
  | cons p rest ih =>
    by_cases hp : p.1 = k
    · simp [dget?, hp]
    · simp only [List.map_cons, List.mem_cons] at h
      rcases h with h | h
      · exact absurd h.symm hp
      · simp only [dget?, if_neg hp]
        exact ih h

end Dict

/-! Data model: the API resources the repeater consumes. -/

-- A Test definition as embedded in the testlists-details payload.
structure Test where
  slug : String
  name : String
  type : String
  statistic : Bool
  url : String
  deriving DecidableEq

-- A TestInstance as returned inside a session payload.  The value lives in
-- one of several fields depending on the owning test's type; json_value and
-- unit_lookup_value are raw strings in the API payload.
structure TestInstance where
  skipped : Bool
  value : PyVal
  string_value : PyVal
  date_value : PyVal
  datetime_value : PyVal
  json_value : String
  unit_lookup_value : String
  unit_test_info : String
  deriving DecidableEq

-- A UnitTestInfo link object.
structure UTI where
  url : String
  test : String
  deriving DecidableEq

-- A QA session (test list instance) as fetched from the API.
structure Session where
  url : String
  work_completed : String
  test_instances : List TestInstance
  deriving DecidableEq

-- Attachment metadata plus its downloaded content.
structure Attachment where
  content : String
  label : String
  deriving DecidableEq

def CALCULATED_TEST_TYPES : List String := ["composite", "scomposite", "rlookup"]

def API_SLEEP_TIME_S : ℚ := 2 / 5

/-! qarepeater.get_testinstance_value, translated branch for branch. -/

def get_testinstance_value (test : Test) (ti : TestInstance) : PyVal :=
  if ti.skipped then PyVal.none
  else if test.type = "simple" ∧ test.statistic then jsonLoads ti.json_value
  else if test.type ∈ ["boolean", "composite", "constant", "simple", "wraparound"] then ti.value
  else if test.type ∈ ["string", "scomposite", "multchoice", "upload"] then ti.string_value
  else if test.type = "date" then ti.date_value
  else if test.type = "datetime" then ti.datetime_value
  else if test.type = "ulookup" then PyVal.str (object_id_from_url ti.unit_lookup_value)
  else if test.type = "rlookup" then PyVal.str (object_id_from_url ti.unit_lookup_value)
  else PyVal.str ti.json_value

/-! Errors raised by the client: dict subscripts (KeyError), the non-201
submission failure (ValueError carrying the response and, when the body was
JSON-parseable, the body), and a failed attachment download. -/

inductive Err where
  | keyError : String → Err
  | submissionError : Nat → Option PyVal → Err
  | attachmentError : PyVal → Err
  deriving DecidableEq

-- Short-circuiting sequencing, mirroring Python exception propagation.
def ebind {α β : Type} : Except Err α → (α → Except Err β) → Except Err β
  | Except.error e, _ => Except.error e
  | Except.ok a, f => f a

@[simp] theorem ebind_ok {α β : Type} (a : α) (f : α → Except Err β) :
    ebind (Except.ok a) f = f a := rfl

@[simp] theorem ebind_error {α β : Type} (e : Err) (f : α → Except Err β) :
    ebind (Except.error e) f = Except.error e := rfl

-- Python dict subscript: `d[k]` raises KeyError when the key is absent.
def olookup {α β : Type} (o : Option α) (e : Err) (f : α → Except Err β) :
    Except Err β :=
  match o with
  | Option.none => Except.error e
  | some a => f a

@[simp] theorem olookup_some {α β : Type} (a : α) (e : Err) (f : α → Except Err β) :
    olookup (some a) e f = f a := rfl

@[simp] theorem olookup_none {α β : Type} (e : Err) (f : α → Except Err β) :
    olookup Option.none e f = Except.error e := rfl

-- The POST response for a session submission.  json_body is none when the
-- body is not parseable as JSON; url_field is the body's "url" entry when
-- the body is a mapping carrying one.
structure PostResponse where
  status_code : Nat
  json_body : Option PyVal
  url_field : Option String
  deriving DecidableEq

/-! The client's resolved, cached environment.  tests, unit_utis are the
cached API fetches (testlists-details and the unit's unittestinfos);
attachments and sessions_by_url model what the remote API serves for
attachment downloads and session GETs. -/

structure Env where
  tests : List Test
  unit_utis : List UTI
  attachments : List (PyVal × Attachment)
  sessions_by_url : List (String × Session)
  deriving DecidableEq

-- `{t["slug"]: t for t in self.tests}`
def slug_to_test (env : Env) : List (String × Test) :=
  env.tests.foldl (fun d t => dinsert d t.slug t) []

-- `{t["url"]: t for t in self.tests}`
def test_url_to_test (env : Env) : List (String × Test) :=
  env.tests.foldl (fun d t => dinsert d t.url t) []

-- QARepeater.unit_test_infos: all unit UTIs filtered to the current tests.
def unit_test_infos (env : Env) : List UTI :=
  env.unit_utis.filter (fun uti => decide (uti.test ∈ env.tests.map Test.url))

-- `{uti["url"]: uti["test"] for uti in self.unit_test_infos}`
def unit_test_info_to_test (env : Env) : List (String × String) :=
  (unit_test_infos env).foldl (fun d uti => dinsert d uti.url uti.test) []

/-! QARepeater.results_from_session. -/

def results_from (env : Env) :
    List TestInstance → List (String × PyVal) → Except Err (List (String × PyVal))
  | [], acc => Except.ok acc
  | ti :: rest, acc =>
    olookup (dget? (unit_test_info_to_test env) ti.unit_test_info)
      (Err.keyError ti.unit_test_info) (fun test_url =>
    olookup (dget? (test_url_to_test env) test_url)
      (Err.keyError test_url) (fun test =>
    results_from env rest (dinsert acc test.slug (get_testinstance_value test ti))))

def results_from_session (env : Env) (qa_session : Session) :
    Except Err (List (String × PyVal)) :=
  results_from env qa_session.test_instances []

/-! Lines 121-125 of repeat_qa: the previously calculated results. -/

def calc_results_from (env : Env) :
    List (String × PyVal) → List (String × PyVal) → Except Err (List (String × PyVal))
  | [], acc => Except.ok acc
  | sv :: rest, acc =>
    olookup (dget? (slug_to_test env) sv.1) (Err.keyError sv.1) (fun test =>
      if test.type ∈ CALCULATED_TEST_TYPES then
        calc_results_from env rest (dinsert acc sv.1 sv.2)
      else calc_results_from env rest acc)

def previous_calculated_results (env : Env) (previous_results : List (String × PyVal)) :
    Except Err (List (String × PyVal)) :=
  calc_results_from env previous_results []

/-! QARepeater.fetch_attachment, modelled as a lookup into the data the
remote API serves; a failed download is an error. -/

def fetch_attachment (env : Env) (attachment_id : PyVal) : Except Err Attachment :=
  match dget? env.attachments attachment_id with
  | Option.none => Except.error (Err.attachmentError attachment_id)
  | some att => Except.ok att

/-! Model of `base64.b64decode(content).decode()` applied to the downloaded
attachment content: base64 text to a string of the decoded bytes (byte-level
I/O is external to the repository). Characters outside the base64 alphabet
(including the padding) are skipped. -/

def b64CharVal (c : Char) : Option Nat :=
  if 'A' ≤ c ∧ c ≤ 'Z' then some (c.toNat - 65)
  else if 'a' ≤ c ∧ c ≤ 'z' then some (c.toNat - 97 + 26)
  else if '0' ≤ c ∧ c ≤ '9' then some (c.toNat - 48 + 52)
  else if c = '+' then some 62
  else if c = '/' then some 63
  else Option.none

def b64decodeBytes (s : String) : List Nat :=
  (s.data.foldl
    (fun acc c =>
      match b64CharVal c with
      | Option.none => acc
      | some v =>
        let bits := acc.1 * 64 + v
        let nbits := acc.2.1 + 6
        if 8 ≤ nbits then
          (bits % 2 ^ (nbits - 8), nbits - 8, acc.2.2 ++ [bits / 2 ^ (nbits - 8) % 256])
        else (bits, nbits, acc.2.2))
    (0, 0, [])).2.2

def b64decode_decode (s : String) : String :=
  String.mk ((b64decodeBytes s).map Char.ofNat)

/-! The submission payload entries: `{"skipped": True}`, `{"value": v}` or
`{"value": ..., "filename": ..., "encoding": "base64"}`. -/

inductive SubEntry where
  | skip : SubEntry
  | val : PyVal → SubEntry
  | upload : String → String → String → SubEntry
  deriving DecidableEq

/-! Lines 133-151 of repeat_qa: the submission payload. -/

-- The dict comprehension on line 133.
def initial_payload (env : Env) : List (String × SubEntry) :=
  (env.tests.filter (fun t => decide (t.type ∉ CALCULATED_TEST_TYPES))).foldl
    (fun d t => dinsert d t.slug SubEntry.skip) []

-- One iteration of the loop on lines 134-151.
def payload_step (env : Env) (d : List (String × SubEntry)) (sv : String × PyVal) :
    Except Err (List (String × SubEntry)) :=
  olookup (dget? (slug_to_test env) sv.1) (Err.keyError sv.1) (fun test =>
    if test.type ∈ CALCULATED_TEST_TYPES ∨ sv.2 = PyVal.none then Except.ok d
    else if test.type = "upload" then
      if pyTruthy sv.2 then
        ebind (fetch_attachment env sv.2) (fun attachment =>
          Except.ok (dinsert d test.slug
            (SubEntry.upload (b64decode_decode attachment.content) attachment.label "base64")))
      else Except.ok d
    else Except.ok (dinsert d test.slug (SubEntry.val sv.2)))

def build_payload_from (env : Env) :
    List (String × SubEntry) → List (String × PyVal) → Except Err (List (String × SubEntry))
  | d, [] => Except.ok d
  | d, sv :: rest =>
    ebind (payload_step env d sv) (fun d' => build_payload_from env d' rest)

def build_payload (env : Env) (previous_results : List (String × PyVal)) :
    Except Err (List (String × SubEntry)) :=
  build_payload_from env (initial_payload env) previous_results

/-! QARepeater.perform_session: POST the payload; any status other than 201
raises a ValueError carrying the response (and its body when parseable);
on 201 the created session is fetched back via the body's url. -/

def perform_session (_tests : List (String × SubEntry)) (response : PostResponse)
    (env : Env) : Except Err Session :=
  if response.status_code ≠ 201 then
    Except.error (Err.submissionError response.status_code response.json_body)
  else
    olookup response.url_field (Err.keyError "url") (fun u =>
    olookup (dget? env.sessions_by_url u) (Err.keyError u) Except.ok)

/-! QARepeater.generate_results_table. -/

def table_header (previous_session new_session : Session) : List (List PyVal) :=
  [[PyVal.str "Previous Session Link", PyVal.str previous_session.url],
   [PyVal.str "Previous Session Date", PyVal.str previous_session.work_completed],
   [PyVal.str "New Session Link", PyVal.str new_session.url],
   [PyVal.str "New Session Date", PyVal.str new_session.work_completed],
   [PyVal.str "Test", PyVal.str "Previous Result", PyVal.str "New Result", PyVal.str "Equal"]]

def table_row (test : Test) (prev_val new_val : PyVal) : List PyVal :=
  [PyVal.str test.name, prev_val, new_val, PyVal.str (pyBoolStr (pyEq prev_val new_val))]

def table_rows_from (env : Env) (new_results : List (String × PyVal)) :
    List (String × PyVal) → List (List PyVal) → Except Err (List (List PyVal))
  | [], acc => Except.ok acc
  | sv :: rest, acc =>
    olookup (dget? (slug_to_test env) sv.1) (Err.keyError sv.1) (fun test =>
      table_rows_from env new_results rest
        (acc ++ [table_row test sv.2 ((dget? new_results sv.1).getD (PyVal.str ""))]))

def generate_results_table (env : Env) (previous_session : Session)
    (previous_results : List (String × PyVal)) (new_session : Session)
    (new_results : List (String × PyVal)) : Except Err (List (List PyVal)) :=
  table_rows_from env new_results previous_results
    (table_header previous_session new_session)

/-! The body of repeat_qa for a single historical session, returning the
decoded previous results, the submission payload actually posted, and the
produced comparison table. -/

def repeat_one (env : Env) (previous_session : Session) (post_response : PostResponse) :
    Except Err (List (String × PyVal) × List (String × SubEntry) × List (List PyVal)) :=
  ebind (results_from_session env previous_session) (fun previous_results =>
  ebind (previous_calculated_results env previous_results) (fun _calc =>
  ebind (build_payload env previous_results) (fun payload =>
  ebind (perform_session payload post_response env) (fun new_session =>
  ebind (results_from_session env new_session) (fun new_results =>
  ebind (generate_results_table env previous_session previous_results new_session new_results)
    (fun table => Except.ok (previous_results, payload, table)))))))

/-! QARepeater.repeat_qa: iterate over the previous sessions (paired with
the POST response the server gives each replay); an exception aborts the
whole batch. -/

def repeat_qa_from (env : Env) :
    List (Session × PostResponse) → List (List (List PyVal)) →
    Except Err (List (List (List PyVal)))
  | [], acc => Except.ok acc
  | p :: rest, acc =>
    ebind (repeat_one env p.1 p.2) (fun r => repeat_qa_from env rest (acc ++ [r.2.2]))

def repeat_qa (env : Env) (sessions : List (Session × PostResponse)) :
    Except Err (List (List (List PyVal))) :=
  repeat_qa_from env sessions []

/-! The rate limiter (module global _next_allowed_api_call_time and lines
319-326 of get_api_objects), with an exact monotonic clock.  Each call
reads the clock (the arrival time), sleeps while the arrival time precedes
the deadline, then sets the deadline to the PRE-SLEEP reading plus
API_SLEEP_TIME_S and dispatches the request.  limiter_run returns the
(arrival, dispatch) pair of every call; the list argument holds each
request's duration, which separates one call's dispatch from the next
call's arrival. -/

def limiter_run (deadline arrival : ℚ) : List ℚ → List (ℚ × ℚ)
  | [] => []
  | duration :: rest =>
    let dispatch := max arrival deadline
    (arrival, dispatch) :: limiter_run (arrival + API_SLEEP_TIME_S) (dispatch + duration) rest

/-! The module-level limiter state shared by every QARepeater instance in
the process: one global deadline.  api_call is the limiter prologue as
executed through any instance; the instance argument is unused because the
deadline is the module global.  observed_deadline is what a given instance
reads as the next-allowed-call time. -/

structure ProcState where
  next_allowed : ℚ
  now : ℚ
  deriving DecidableEq

def api_call (_instance : Nat) (st : ProcState) : ℚ × ProcState :=
  let dispatch := max st.now st.next_allowed
  (dispatch, ⟨st.now + API_SLEEP_TIME_S, dispatch⟩)

def observed_deadline (st : ProcState) (_instance : Nat) : ℚ :=
  st.next_allowed

/-! Generic facts about the dict-comprehension folds. -/

theorem dget?_foldl_dinsert {κ α β : Type} [DecidableEq κ] (kf : β → κ) (vf : β → α) :
    ∀ (l : List β) (d0 : List (κ × α)) (k : κ) (v : α),
      dget? (l.foldl (fun d x => dinsert d (kf x) (vf x)) d0) k = some v →
      (∃ x ∈ l, kf x = k ∧ vf x = v) ∨ dget? d0 k = some v := by
  intro l
  induction l with
  | nil => intro d0 k v h; exact Or.inr h
  | cons x xs ih =>
    intro d0 k v h
    rw [List.foldl_cons] at h
    rcases ih _ k v h with h' | h'
    · obtain ⟨y, hy, h1, h2⟩ := h'
      exact Or.inl ⟨y, List.mem_cons_of_mem _ hy, h1, h2⟩
    · rw [dget?_dinsert] at h'
      by_cases hk : kf x = k
      · rw [if_pos hk] at h'
        exact Or.inl ⟨x, List.mem_cons_self _ _, hk, Option.some.inj h'⟩
      · rw [if_neg hk] at h'
        exact Or.inr h'

theorem dget?_foldl_dinsert_isSome {κ α β : Type} [DecidableEq κ] (kf : β → κ) (vf : β → α) :
    ∀ (l : List β) (d0 : List (κ × α)) (k : κ),
      ((∃ x ∈ l, kf x = k) ∨ (dget? d0 k).isSome) →
      (dget? (l.foldl (fun d x => dinsert d (kf x) (vf x)) d0) k).isSome := by
  intro l
  induction l with
  | nil =>
    intro d0 k h
    rcases h with ⟨x, hx, _⟩ | h
    · simp at hx
    · exact h
  | cons x xs ih =>
    intro d0 k h
    rw [List.foldl_cons]
    apply ih
    rcases h with ⟨y, hy, hk⟩ | h
    · rcases List.mem_cons.mp hy with rfl | hy'
      · right; rw [dget?_dinsert, if_pos hk]; rfl
      · exact Or.inl ⟨y, hy', hk⟩
    · right
      rw [dget?_dinsert]
      by_cases hk : kf x = k
      · rw [if_pos hk]; rfl
      · rw [if_neg hk]; exact h

theorem slug_to_test_spec {env : Env} {s : String} {t : Test}
    (h : dget? (slug_to_test env) s = some t) : t ∈ env.tests ∧ t.slug = s := by
  rcases dget?_foldl_dinsert Test.slug (fun t => t) env.tests [] s t h with ⟨x, hx, h1, h2⟩ | h'
  · rw [← h2]; exact ⟨hx, h1⟩
  · simp [dget?] at h'

theorem slug_to_test_isSome {env : Env} {t : Test} (ht : t ∈ env.tests) :
    (dget? (slug_to_test env) t.slug).isSome :=
  dget?_foldl_dinsert_isSome Test.slug (fun t => t) env.tests [] t.slug
    (Or.inl ⟨t, ht, rfl⟩)

theorem test_url_to_test_spec {env : Env} {s : String} {t : Test}
    (h : dget? (test_url_to_test env) s = some t) : t ∈ env.tests ∧ t.url = s := by
  rcases dget?_foldl_dinsert Test.url (fun t => t) env.tests [] s t h with ⟨x, hx, h1, h2⟩ | h'
  · rw [← h2]; exact ⟨hx, h1⟩
  · simp [dget?] at h'

theorem unit_test_info_to_test_spec {env : Env} {u turl : String}
    (h : dget? (unit_test_info_to_test env) u = some turl) :
    ∃ uti ∈ unit_test_infos env, uti.url = u ∧ uti.test = turl := by
  rcases dget?_foldl_dinsert UTI.url UTI.test (unit_test_infos env) [] u turl h with
    ⟨x, hx, h1, h2⟩ | h'
  · exact ⟨x, hx, h1, h2⟩
  · simp [dget?] at h'

/-! List-suffix facts used for the root URL shape check. -/

theorem suffix_append_singleton {α : Type} (xs ys : List α) (c : α) :
    xs ++ [c] <:+ ys ++ [c] ↔ xs <:+ ys := by
  constructor
  · rintro ⟨t, ht⟩
    rw [← List.append_assoc] at ht
    exact ⟨t, List.append_cancel_right ht⟩
  · rintro ⟨t, ht⟩
    exact ⟨t, by rw [← List.append_assoc, ht]⟩

theorem isSuffixOf_append_singleton (xs ys : List Char) (c : Char) :
    List.isSuffixOf (xs ++ [c]) (ys ++ [c]) = List.isSuffixOf xs ys := by
  cases hb : List.isSuffixOf xs ys
  · cases hc : List.isSuffixOf (xs ++ [c]) (ys ++ [c])
    · rfl
    · exfalso
      have h1 := List.isSuffixOf_iff_suffix.mp hc
      have h2 := (suffix_append_singleton xs ys c).mp h1
      have h3 := List.isSuffixOf_iff_suffix.mpr h2
      rw [hb] at h3
      exact Bool.false_ne_true h3
  · exact List.isSuffixOf_iff_suffix.mpr
      ((suffix_append_singleton xs ys c).mpr (List.isSuffixOf_iff_suffix.mp hb))

theorem dropWhile_eq_cons_prop {α : Type} (p : α → Bool) :
    ∀ (l : List α) (a : α) (t : List α), l.dropWhile p = a :: t → p a = false := by
  intro l
  induction l with
  | nil => intro a t h; simp [List.dropWhile] at h
  | cons x xs ih =>
    intro a t h
    rw [List.dropWhile_cons] at h
    by_cases hx : p x = true
    · rw [if_pos hx] at h
      exact ih a t h
    · rw [if_neg hx] at h
      injection h with h1 _
      rw [← h1]
      exact Bool.eq_false_iff.mpr hx

theorem stripData_no_slash_suffix (l : List Char) : ¬ (['/'] <:+ stripData l) := by
  intro h
  unfold stripData at h
  have h2 : (['/'] : List Char).reverse <:+
      ((l.dropWhile (· = '/')).reverse.dropWhile (· = '/')).reverse := by
    simpa using h
  obtain ⟨t, ht⟩ := List.reverse_suffix.mp h2
  have hM : (l.dropWhile (· = '/')).reverse.dropWhile (· = '/') = '/' :: t := ht.symm
  have hp := dropWhile_eq_cons_prop _ _ _ _ hM
  simp at hp

/-! QARepeater.__init__ lines 87-90: the stored root and the URL shape
check (`self.root = api_url.strip('/') + '/'` and the endswith test). -/

def qarepeater_root (api_url : String) : String :=
  String.mk (stripData api_url.data ++ ['/'])

def url_shape_ok (api_url : String) : Bool :=
  strEndsWith (qarepeater_root api_url) "/api/"

/-- Claim C10: the constructor's root-URL shape validation is
trailing-slash-insensitive: the shape check passes exactly when the URL,
after stripping all leading and trailing '/' characters, ends with "/api";
a URL missing the trailing slash or carrying several trailing slashes is
accepted, and the stored root always ends with exactly one '/'. -/
theorem root_url_shape_check (api_url : String) :
    (url_shape_ok api_url = true ↔ strEndsWith (stripSlashes api_url) "/api" = true) ∧
    strEndsWith (qarepeater_root api_url) "/" = true ∧
    strEndsWith (qarepeater_root api_url) "//" = false ∧
    url_shape_ok "https://x/api" = true ∧
    url_shape_ok "https://x/api///" = true := by
  refine ⟨?_, ?_, ?_, by decide, by decide⟩
  · show List.isSuffixOf ("/api/").data (stripData api_url.data ++ ['/']) = true ↔
      List.isSuffixOf ("/api").data (stripData api_url.data) = true
    rw [show ("/api/").data = ['/', 'a', 'p', 'i'] ++ ['/'] by decide]
    rw [show ("/api").data = ['/', 'a', 'p', 'i'] by decide]
    rw [isSuffixOf_append_singleton]
  · show List.isSuffixOf ("/").data (stripData api_url.data ++ ['/']) = true
    rw [show ("/").data = ['/'] by decide]
    exact List.isSuffixOf_iff_suffix.mpr (List.suffix_append _ _)
  · show List.isSuffixOf ("//").data (stripData api_url.data ++ ['/']) = false
    rw [show ("//").data = ['/'] ++ ['/'] by decide]
    cases hc : List.isSuffixOf (['/'] ++ ['/']) (stripData api_url.data ++ ['/'])
    · rfl
    · exfalso
      exact stripData_no_slash_suffix api_url.data
        ((suffix_append_singleton _ _ _).mp (List.isSuffixOf_iff_suffix.mp hc))

/-- Claim C5: get_testinstance_value is a pure function of the Test and the
TestInstance that returns null for every skipped instance regardless of
type, and otherwise dispatches on the Test's type exactly as the source
does: simple-with-statistic parses the json_value field; boolean, composite,
constant, non-statistic simple and wraparound read the numeric value field;
string, scomposite, multchoice and upload read the string_value field; date
and datetime read their fields; ulookup and rlookup extract the trailing id
of the unit_lookup_value reference; every other type falls back to the raw
json_value field with no error. -/
theorem value_decoding_dispatch (t : Test) (ti : TestInstance) :
    (ti.skipped = true → get_testinstance_value t ti = PyVal.none) ∧
    (ti.skipped = false →
      (t.type = "simple" ∧ t.statistic = true →
        get_testinstance_value t ti = jsonLoads ti.json_value) ∧
      (t.type ∈ ["boolean", "composite", "constant", "wraparound"] →
        get_testinstance_value t ti = ti.value) ∧
      (t.type = "simple" ∧ t.statistic = false →
        get_testinstance_value t ti = ti.value) ∧
      (t.type ∈ ["string", "scomposite", "multchoice", "upload"] →
        get_testinstance_value t ti = ti.string_value) ∧
      (t.type = "date" → get_testinstance_value t ti = ti.date_value) ∧
      (t.type = "datetime" → get_testinstance_value t ti = ti.datetime_value) ∧
      ((t.type = "ulookup" ∨ t.type = "rlookup") →
        get_testinstance_value t ti = PyVal.str (object_id_from_url ti.unit_lookup_value)) ∧
      (t.type ∉ ["simple", "boolean", "composite", "constant", "wraparound",
        "string", "scomposite", "multchoice", "upload", "date", "datetime",
        "ulookup", "rlookup"] →
        get_testinstance_value t ti = PyVal.str ti.json_value)) := by
  constructor
  · intro h
    simp [get_testinstance_value, h]
  · intro hs
    refine ⟨?_, ?_, ?_, ?_, ?_, ?_, ?_, ?_⟩
    · rintro ⟨h1, h2⟩
      simp [get_testinstance_value, hs, h1, h2]
    · intro hm
      simp only [List.mem_cons, List.not_mem_nil, or_false] at hm
      rcases hm with h | h | h | h <;> simp [get_testinstance_value, hs, h]
    · rintro ⟨h1, h2⟩
      simp [get_testinstance_value, hs, h1, h2]
    · intro hm
      simp only [List.mem_cons, List.not_mem_nil, or_false] at hm
      rcases hm with h | h | h | h <;> simp [get_testinstance_value, hs, h]
    · intro h
      simp [get_testinstance_value, hs, h]
    · intro h
      simp [get_testinstance_value, hs, h]
    · rintro (h | h) <;> simp [get_testinstance_value, hs, h]
    · intro hm
      simp only [List.mem_cons, List.not_mem_nil, or_false] at hm
      push_neg at hm
      obtain ⟨n1, n2, n3, n4, n5, n6, n7, n8, n9, n10, n11, n12, n13⟩ := hm
      simp [get_testinstance_value, hs, n1, n2, n3, n4, n5, n6, n7, n8, n9,
        n10, n11, n12, n13]

/-- Witness for C5 at a concrete date-type test and instance. -/
theorem value_decoding_dispatch_witness :
    get_testinstance_value ⟨"d", "Date test", "date", false, "T1"⟩
      ⟨false, PyVal.none, PyVal.none, PyVal.str "2024-01-02", PyVal.none, "", "", "U1"⟩ =
      PyVal.str "2024-01-02" := by
  have h := value_decoding_dispatch ⟨"d", "Date test", "date", false, "T1"⟩
    ⟨false, PyVal.none, PyVal.none, PyVal.str "2024-01-02", PyVal.none, "", "", "U1"⟩
  exact (h.2 rfl).2.2.2.2.1 rfl

/-- Counterexample to C7.  The deadline is advanced from the PRE-sleep clock
reading (line 326 uses the `now` read before the sleep), so two consecutive
dispatches can be closer than API_SLEEP_TIME_S: with the deadline and clock
starting at 0 and request durations 3/10, 0, 0, the three calls dispatch at
0, 2/5 and 7/10 - the gap between the second and third dispatch is 3/10,
less than the 2/5 interval - refuting the claimed bound even for realistic
traces (initial deadline at or before the first arrival, nonnegative
durations). -/
theorem rate_limiter_gap_counterexample :
    ¬ (∀ (d a : ℚ) (ds : List ℚ), d ≤ a → (∀ x ∈ ds, 0 ≤ x) →
        List.Chain' (fun p q : ℚ × ℚ => p.2 + API_SLEEP_TIME_S ≤ q.2)
          (limiter_run d a ds)) := by
  intro h
  have h2 := h 0 0 [3/10, 0, 0] le_rfl (by norm_num)
  have heval : limiter_run 0 0 [3/10, 0, 0] =
      [(0, 0), (3/10, 2/5), (2/5, 7/10)] := by
    norm_num [limiter_run, API_SLEEP_TIME_S]
  rw [heval, List.chain'_cons, List.chain'_cons] at h2
  have hbad := h2.2.1
  norm_num [API_SLEEP_TIME_S] at hbad

/-- Claim C7 amended: each call first sleeps if the current time precedes
the shared deadline, then sets the deadline to the PRE-sleep clock reading
plus the fixed interval before sending; consequently what is guaranteed is
that call i+1's dispatch is never earlier than call i's pre-sleep clock
reading (its arrival at the limiter) plus the interval - the inter-dispatch
gap itself can fall short of the interval exactly when call i slept. -/
theorem rate_limiter_deadline_bound (d a : ℚ) (ds : List ℚ) :
    List.Chain' (fun p q : ℚ × ℚ => p.1 + API_SLEEP_TIME_S ≤ q.2)
      (limiter_run d a ds) := by
  induction ds generalizing d a with
  | nil => simp [limiter_run]
  | cons x rest ih =>
    simp only [limiter_run]
    rw [List.chain'_cons']
    constructor
    · intro b hb
      cases rest with
      | nil => simp [limiter_run] at hb
      | cons y rest' =>
        simp only [limiter_run, List.head?_cons, Option.mem_def,
          Option.some.injEq] at hb
        rw [← hb]
        exact le_max_right _ _
    · exact ih _ _

/-- Counterexample to C9.  _next_allowed_api_call_time is a module-level
global: with the deadline and clock at 0, an API call issued through
instance 0 changes the next-allowed-call deadline observed by instance 1
from 0 to 2/5, so the instances do share the rate-limiter state. -/
theorem limiter_state_shared_counterexample :
    observed_deadline (api_call 0 ⟨0, 0⟩).2 1 ≠ observed_deadline ⟨0, 0⟩ 1 := by
  norm_num [api_call, observed_deadline, API_SLEEP_TIME_S]

/-- Claim C9 amended: the rate-limiter deadline is one module-level global
shared by every client instance in the process: after an API call issued
through any instance, the deadline observed by every instance (including
the non-calling ones) equals the caller's clock reading plus the fixed
interval, so a call through one instance does change the deadline the other
instance observes whenever the interval is nonzero. -/
theorem limiter_state_shared (st : ProcState) (i j k : Nat) :
    observed_deadline (api_call i st).2 j = st.now + API_SLEEP_TIME_S ∧
    observed_deadline (api_call i st).2 j = observed_deadline (api_call i st).2 k := by
  exact ⟨rfl, rfl⟩

/-- Modelled from the spec: the remote RadMachine server's storage of a
submitted session is not part of this repository (the spec's "submitting a
session built from the decoded values ... for every test whose type and
value were unchanged").  server_stores t v ti says the created TestInstance
ti carries the submitted value v unchanged in the field that test type t
reads, mirroring the field layout of section 3 and the dispatch of
section 4.2 of the spec. -/
def server_stores (t : Test) (v : PyVal) (ti : TestInstance) : Prop :=
  if t.type = "simple" ∧ t.statistic then jsonLoads ti.json_value = v
  else if t.type ∈ ["boolean", "composite", "constant", "simple", "wraparound"] then ti.value = v
  else if t.type ∈ ["string", "scomposite", "multchoice", "upload"] then ti.string_value = v
  else if t.type = "date" then ti.date_value = v
  else if t.type = "datetime" then ti.datetime_value = v
  else if t.type = "ulookup" then PyVal.str (object_id_from_url ti.unit_lookup_value) = v
  else if t.type = "rlookup" then PyVal.str (object_id_from_url ti.unit_lookup_value) = v
  else PyVal.str ti.json_value = v

theorem get_value_of_server_stores (t : Test) (v : PyVal) (ti : TestInstance)
    (hs : ti.skipped = false) (h : server_stores t v ti) :
    get_testinstance_value t ti = v := by
  have hskip : ¬ (ti.skipped = true) := by rw [hs]; exact Bool.false_ne_true
  unfold server_stores at h
  unfold get_testinstance_value
  rw [if_neg hskip]
  split_ifs at h ⊢ <;> exact h

/-- Claim C2: submitting a session built from a historical session's decoded
non-calculated values and then decoding the newly created session yields
values equal to the historical ones, for every test whose type and value
were unchanged (the server stored the submitted decoded value in the
type-appropriate field) and whose type is not calculated: the
decode-encode-decode path is idempotent for representable types. -/
theorem decode_encode_decode_round_trip (t : Test) (ti ti' : TestInstance)
    (_hcalc : t.type ∉ CALCULATED_TEST_TYPES)
    (_hsk : ti.skipped = false) (hsk' : ti'.skipped = false)
    (_hnn : get_testinstance_value t ti ≠ PyVal.none)
    (hstore : server_stores t (get_testinstance_value t ti) ti') :
    get_testinstance_value t ti' = get_testinstance_value t ti :=
  get_value_of_server_stores t _ ti' hsk' hstore

/-- Witness for C2 at a concrete non-statistic simple test whose numeric
value 22 was stored unchanged. -/
theorem decode_encode_decode_round_trip_witness :
    get_testinstance_value ⟨"temp", "Temperature", "simple", false, "T1"⟩
        ⟨false, PyVal.num 22, PyVal.none, PyVal.none, PyVal.none, "", "", "U2"⟩ =
      get_testinstance_value ⟨"temp", "Temperature", "simple", false, "T1"⟩
        ⟨false, PyVal.num 22, PyVal.none, PyVal.none, PyVal.none, "", "", "U1"⟩ := by
  refine decode_encode_decode_round_trip _ _ _ (by decide) rfl rfl (by decide) ?_
  simp [server_stores, get_testinstance_value]

/-! Claim C6 machinery: an instance whose unit test info is not in the
filtered mapping makes results_from_session raise a KeyError. -/

theorem results_from_error_of_missing (env : Env) :
    ∀ (l : List TestInstance) (acc : List (String × PyVal)),
      (∃ ti ∈ l, dget? (unit_test_info_to_test env) ti.unit_test_info = Option.none) →
      ∃ e, results_from env l acc = Except.error e := by
  intro l
  induction l with
  | nil =>
    rintro acc ⟨ti, hti, _⟩
    simp at hti
  | cons x xs ih =>
    rintro acc ⟨ti, hti, hnone⟩
    rcases List.mem_cons.mp hti with rfl | hmem
    · exact ⟨Err.keyError ti.unit_test_info, by
        simp only [results_from, hnone, olookup_none]⟩
    · cases hu : dget? (unit_test_info_to_test env) x.unit_test_info with
      | none =>
        exact ⟨Err.keyError x.unit_test_info, by
          simp only [results_from, hu, olookup_none]⟩
      | some turl =>
        cases ht : dget? (test_url_to_test env) turl with
        | none =>
          exact ⟨Err.keyError turl, by
            simp only [results_from, hu, ht, olookup_some, olookup_none]⟩
        | some t =>
          obtain ⟨e, he⟩ := ih _ ⟨ti, hmem, hnone⟩
          exact ⟨e, by simp only [results_from, hu, ht, olookup_some]; exact he⟩

-- Concrete setup for C6: the historical session has an instance for unit
-- test info U2, whose test T2 is no longer in the assignment's test list.
def envC6 : Env :=
  ⟨[⟨"a", "Test A", "simple", false, "T1"⟩], [⟨"U1", "T1"⟩, ⟨"U2", "T2"⟩], [], []⟩

def sessC6 : Session :=
  ⟨"S1", "2024-01-01",
    [⟨false, PyVal.num 1, PyVal.none, PyVal.none, PyVal.none, "", "", "U2"⟩]⟩

/-- Counterexample to C6.  Decoding a historical session containing a test
instance whose underlying test (T2) is no longer in the assignment's test
list does NOT silently drop the instance: the unit-test-info subscript
raises a KeyError, so the decode errors out instead of returning a mapping
without the removed test. -/
theorem removed_test_instance_counterexample :
    results_from_session envC6 sessC6 = Except.error (Err.keyError "U2") ∧
    (∀ t ∈ envC6.tests, t.url ≠ "T2") ∧
    ∀ res, results_from_session envC6 sessC6 ≠ Except.ok res := by
  have heval : results_from_session envC6 sessC6 = Except.error (Err.keyError "U2") := rfl
  refine ⟨heval, by decide, ?_⟩
  intro res h
  rw [heval] at h
  exact Except.noConfusion h

/-- Claim C6 amended: for every historical session containing a test
instance whose underlying test is no longer in the assignment's current
test list (every unit test info with that instance's address refers to a
test outside the current test list), decoding that session raises a
KeyError rather than silently dropping the instance, and the whole replay
of that session aborts with that error (so the removed test indeed appears
in no decoded mapping, payload or table - but only because there are none). -/
theorem removed_test_instance_raises (env : Env) (sess : Session)
    (h : ∃ ti ∈ sess.test_instances, ∀ uti ∈ env.unit_utis,
        uti.url = ti.unit_test_info → uti.test ∉ env.tests.map Test.url) :
    ∃ e, results_from_session env sess = Except.error e ∧
      ∀ resp, repeat_one env sess resp = Except.error e := by
  obtain ⟨ti, hmem, hrem⟩ := h
  have hnone : dget? (unit_test_info_to_test env) ti.unit_test_info = Option.none := by
    cases hu : dget? (unit_test_info_to_test env) ti.unit_test_info with
    | none => rfl
    | some turl =>
      obtain ⟨uti, hu1, hu2, _⟩ := unit_test_info_to_test_spec hu
      have h1 := List.mem_filter.mp hu1
      exact absurd (by simpa using h1.2) (hrem uti h1.1 hu2)
  obtain ⟨e, he⟩ := results_from_error_of_missing env sess.test_instances []
    ⟨ti, hmem, hnone⟩
  refine ⟨e, he, fun resp => ?_⟩
  unfold repeat_one
  rw [show results_from_session env sess = Except.error e from he]
  rfl

/-- Witness for the amended C6 theorem at the concrete envC6 setup. -/
theorem removed_test_instance_raises_witness :
    ∃ e, results_from_session envC6 sessC6 = Except.error e ∧
      ∀ resp, repeat_one envC6 sessC6 resp = Except.error e :=
  removed_test_instance_raises envC6 sessC6 (by decide)

/-! Claim C8 machinery. -/

theorem perform_session_non_201 (payload : List (String × SubEntry))
    (resp : PostResponse) (env : Env) (h : resp.status_code ≠ 201) :
    perform_session payload resp env =
      Except.error (Err.submissionError resp.status_code resp.json_body) := by
  unfold perform_session
  rw [if_pos h]

theorem repeat_one_submission_error (env : Env) (prev : Session) (resp : PostResponse)
    (pres calcres : List (String × PyVal)) (payload : List (String × SubEntry))
    (hres : results_from_session env prev = Except.ok pres)
    (hcalc : previous_calculated_results env pres = Except.ok calcres)
    (hpay : build_payload env pres = Except.ok payload)
    (hstatus : resp.status_code ≠ 201) :
    repeat_one env prev resp =
      Except.error (Err.submissionError resp.status_code resp.json_body) := by
  unfold repeat_one
  rw [hres, ebind_ok, hcalc, ebind_ok, hpay, ebind_ok,
    perform_session_non_201 payload resp env hstatus, ebind_error]

theorem repeat_qa_from_append_ok (env : Env) :
    ∀ (pre l : List (Session × PostResponse)) (acc : List (List (List PyVal))),
      (∀ q ∈ pre, ∃ r, repeat_one env q.1 q.2 = Except.ok r) →
      ∃ acc', repeat_qa_from env (pre ++ l) acc = repeat_qa_from env l acc' := by
  intro pre
  induction pre with
  | nil => intro l acc _; exact ⟨acc, rfl⟩
  | cons q qs ih =>
    intro l acc hok
    obtain ⟨r, hr⟩ := hok q (List.mem_cons_self _ _)
    obtain ⟨acc', ha⟩ := ih l (acc ++ [r.2.2]) (fun p hp => hok p (List.mem_cons_of_mem _ hp))
    refine ⟨acc', ?_⟩
    rw [List.cons_append]
    simp only [repeat_qa_from, hr, ebind_ok]
    exact ha

/-- Claim C8: if the POST creating a new session returns any HTTP status
other than 201, a descriptive ValueError is raised carrying the response
status and, when the body was parseable as JSON, the body; the new session
is fetched and decoded only on a 201 (perform_session follows the body's
url only in the 201 branch); the exception propagates uncaught out of
repeat_qa, aborting the remainder of the requested batch with no retry:
when every earlier session replayed fine and the decode and payload steps
of the failing session succeeded, the whole batch result is exactly that
error, whatever sessions remain after the failing one. -/
theorem submission_error_aborts_batch (env : Env)
    (pre rest : List (Session × PostResponse)) (prev : Session) (resp : PostResponse)
    (pres calcres : List (String × PyVal)) (payload : List (String × SubEntry))
    (hpre : ∀ q ∈ pre, ∃ r, repeat_one env q.1 q.2 = Except.ok r)
    (hres : results_from_session env prev = Except.ok pres)
    (hcalc : previous_calculated_results env pres = Except.ok calcres)
    (hpay : build_payload env pres = Except.ok payload)
    (hstatus : resp.status_code ≠ 201) :
    perform_session payload resp env =
      Except.error (Err.submissionError resp.status_code resp.json_body) ∧
    repeat_qa env (pre ++ (prev, resp) :: rest) =
      Except.error (Err.submissionError resp.status_code resp.json_body) := by
  refine ⟨perform_session_non_201 payload resp env hstatus, ?_⟩
  unfold repeat_qa
  obtain ⟨acc', ha⟩ := repeat_qa_from_append_ok env pre ((prev, resp) :: rest) [] hpre
  rw [ha]
  have h2 := repeat_one_submission_error env prev resp pres calcres payload
    hres hcalc hpay hstatus
  simp only [repeat_qa_from, h2, ebind_error]

/-- Witness for C8: a batch of one session whose POST returns 400 with a
JSON body; the batch aborts with the submission error. -/
theorem submission_error_aborts_batch_witness :
    perform_session [] ⟨400, some (PyVal.str "Bad Request"), Option.none⟩ ⟨[], [], [], []⟩ =
      Except.error (Err.submissionError 400 (some (PyVal.str "Bad Request"))) ∧
    repeat_qa ⟨[], [], [], []⟩
        [(⟨"S", "D", []⟩, ⟨400, some (PyVal.str "Bad Request"), Option.none⟩)] =
      Except.error (Err.submissionError 400 (some (PyVal.str "Bad Request"))) :=
  submission_error_aborts_batch ⟨[], [], [], []⟩ [] [] ⟨"S", "D", []⟩
    ⟨400, some (PyVal.str "Bad Request"), Option.none⟩ [] [] []
    (fun q hq => absurd hq (List.not_mem_nil q)) rfl rfl rfl (by decide)

/-! Payload construction machinery (claims C1, C3, C4). -/

theorem payload_step_cases (env : Env) (d : List (String × SubEntry)) (sv : String × PyVal)
    (d' : List (String × SubEntry)) (h : payload_step env d sv = Except.ok d') :
    ∃ t, dget? (slug_to_test env) sv.1 = some t ∧ t ∈ env.tests ∧ t.slug = sv.1 ∧
      (((t.type ∈ CALCULATED_TEST_TYPES ∨ sv.2 = PyVal.none) ∧ d' = d) ∨
       (t.type ∉ CALCULATED_TEST_TYPES ∧ sv.2 ≠ PyVal.none ∧ t.type = "upload" ∧
         pyTruthy sv.2 = false ∧ d' = d) ∨
       (∃ att, t.type ∉ CALCULATED_TEST_TYPES ∧ sv.2 ≠ PyVal.none ∧ t.type = "upload" ∧
         pyTruthy sv.2 = true ∧ fetch_attachment env sv.2 = Except.ok att ∧
         d' = dinsert d sv.1 (SubEntry.upload (b64decode_decode att.content)
           att.label "base64")) ∨
       (t.type ∉ CALCULATED_TEST_TYPES ∧ sv.2 ≠ PyVal.none ∧ t.type ≠ "upload" ∧
         d' = dinsert d sv.1 (SubEntry.val sv.2))) := by
  unfold payload_step at h
  cases hlook : dget? (slug_to_test env) sv.1 with
  | none =>
    rw [hlook, olookup_none] at h
    exact Except.noConfusion h
  | some t =>
    rw [hlook, olookup_some] at h
    obtain ⟨hmem, hslug⟩ := slug_to_test_spec hlook
    refine ⟨t, rfl, hmem, hslug, ?_⟩
    by_cases hc : t.type ∈ CALCULATED_TEST_TYPES ∨ sv.2 = PyVal.none
    · rw [if_pos hc] at h
      exact Or.inl ⟨hc, (Except.ok.inj h).symm⟩
    · rw [if_neg hc] at h
      push_neg at hc
      obtain ⟨hc1, hc2⟩ := hc
      by_cases hu : t.type = "upload"
      · rw [if_pos hu] at h
        by_cases htr : pyTruthy sv.2 = true
        · rw [if_pos htr] at h
          cases hf : fetch_attachment env sv.2 with
          | error e =>
            rw [hf, ebind_error] at h
            exact Except.noConfusion h
          | ok att =>
            rw [hf, ebind_ok] at h
            rw [hslug] at h
            exact Or.inr (Or.inr (Or.inl
              ⟨att, hc1, hc2, hu, htr, rfl, (Except.ok.inj h).symm⟩))
        · have htr' : pyTruthy sv.2 = false := by
            cases hx : pyTruthy sv.2
            · rfl
            · exact absurd hx htr
          rw [if_neg htr] at h
          exact Or.inr (Or.inl ⟨hc1, hc2, hu, htr', (Except.ok.inj h).symm⟩)
      · rw [if_neg hu] at h
        rw [hslug] at h
        exact Or.inr (Or.inr (Or.inr ⟨hc1, hc2, hu, (Except.ok.inj h).symm⟩))

theorem build_from_untouched (env : Env) :
    ∀ (pres : List (String × PyVal)) (d d' : List (String × SubEntry)) (k : String),
      build_payload_from env d pres = Except.ok d' → k ∉ pres.map Prod.fst →
      dget? d' k = dget? d k := by
  intro pres
  induction pres with
  | nil =>
    intro d d' k h _
    rw [← Except.ok.inj h]
  | cons sv rest ih =>
    intro d d' k h hk
    simp only [build_payload_from] at h
    cases hs : payload_step env d sv with
    | error e =>
      rw [hs, ebind_error] at h
      exact Except.noConfusion h
    | ok d1 =>
      rw [hs, ebind_ok] at h
      simp only [List.map_cons, List.mem_cons] at hk
      push_neg at hk
      rw [ih d1 d' k h hk.2]
      have hne : ¬ (sv.1 = k) := fun he => hk.1 he.symm
      obtain ⟨t, _, _, _, hcase⟩ := payload_step_cases env d sv d1 hs
      rcases hcase with ⟨_, rfl⟩ | ⟨_, _, _, _, rfl⟩ | ⟨att, _, _, _, _, _, rfl⟩ |
        ⟨_, _, _, rfl⟩
      · rfl
      · rfl
      · rw [dget?_dinsert, if_neg hne]
      · rw [dget?_dinsert, if_neg hne]

theorem build_from_isSome (env : Env) :
    ∀ (pres : List (String × PyVal)) (d d' : List (String × SubEntry)) (k : String),
      build_payload_from env d pres = Except.ok d' → (dget? d k).isSome →
      (dget? d' k).isSome := by
  intro pres
  induction pres with
  | nil =>
    intro d d' k h hsome
    rw [← Except.ok.inj h]
    exact hsome
  | cons sv rest ih =>
    intro d d' k h hsome
    simp only [build_payload_from] at h
    cases hs : payload_step env d sv with
    | error e =>
      rw [hs, ebind_error] at h
      exact Except.noConfusion h
    | ok d1 =>
      rw [hs, ebind_ok] at h
      refine ih d1 d' k h ?_
      obtain ⟨t, _, _, _, hcase⟩ := payload_step_cases env d sv d1 hs
      rcases hcase with ⟨_, rfl⟩ | ⟨_, _, _, _, rfl⟩ | ⟨att, _, _, _, _, _, rfl⟩ |
        ⟨_, _, _, rfl⟩
      · exact hsome
      · exact hsome
      · rw [dget?_dinsert]
        by_cases hkk : sv.1 = k
        · rw [if_pos hkk]; rfl
        · rw [if_neg hkk]; exact hsome
      · rw [dget?_dinsert]
        by_cases hkk : sv.1 = k
        · rw [if_pos hkk]; rfl
        · rw [if_neg hkk]; exact hsome

theorem build_from_entry_source (env : Env) :
    ∀ (pres : List (String × PyVal)) (d d' : List (String × SubEntry))
      (k : String) (e : SubEntry),
      build_payload_from env d pres = Except.ok d' → dget? d' k = some e →
      dget? d k = some e ∨
      ∃ v t, (k, v) ∈ pres ∧ v ≠ PyVal.none ∧
        dget? (slug_to_test env) k = some t ∧ t ∈ env.tests ∧
        t.type ∉ CALCULATED_TEST_TYPES ∧ e ≠ SubEntry.skip := by
  intro pres
  induction pres with
  | nil =>
    intro d d' k e h he
    rw [Except.ok.inj h]
    exact Or.inl he
  | cons sv rest ih =>
    intro d d' k e h he
    simp only [build_payload_from] at h
    cases hs : payload_step env d sv with
    | error e' =>
      rw [hs, ebind_error] at h
      exact Except.noConfusion h
    | ok d1 =>
      rw [hs, ebind_ok] at h
      rcases ih d1 d' k e h he with h1 | ⟨v, t, hv, hnn, hlook, hmem, hnc, hne⟩
      · obtain ⟨t, hlook, hmem, hslug, hcase⟩ := payload_step_cases env d sv d1 hs
        rcases hcase with ⟨_, rfl⟩ | ⟨_, _, _, _, rfl⟩ |
          ⟨att, hc1, hc2, hu, htr, hf, rfl⟩ | ⟨hc1, hc2, hu, rfl⟩
        · exact Or.inl h1
        · exact Or.inl h1
        · rw [dget?_dinsert] at h1
          by_cases hkk : sv.1 = k
          · rw [if_pos hkk] at h1
            right
            refine ⟨sv.2, t, ?_, hc2, ?_, hmem, hc1, ?_⟩
            · have hsv : (k, sv.2) = sv := by rw [← hkk]
              rw [hsv]
              exact List.mem_cons_self _ _
            · rw [← hkk]
              exact hlook
            · rw [← Option.some.inj h1]
              intro hcon
              exact SubEntry.noConfusion hcon
          · rw [if_neg hkk] at h1
            exact Or.inl h1
        · rw [dget?_dinsert] at h1
          by_cases hkk : sv.1 = k
          · rw [if_pos hkk] at h1
            right
            refine ⟨sv.2, t, ?_, hc2, ?_, hmem, hc1, ?_⟩
            · have hsv : (k, sv.2) = sv := by rw [← hkk]
              rw [hsv]
              exact List.mem_cons_self _ _
            · rw [← hkk]
              exact hlook
            · rw [← Option.some.inj h1]
              intro hcon
              exact SubEntry.noConfusion hcon
          · rw [if_neg hkk] at h1
            exact Or.inl h1
      · exact Or.inr ⟨v, t, List.mem_cons_of_mem _ hv, hnn, hlook, hmem, hnc, hne⟩

theorem nodup_keys_unique {κ α : Type} [DecidableEq κ] :
    ∀ {l : List (κ × α)}, (l.map Prod.fst).Nodup →
      ∀ {k : κ} {v v' : α}, (k, v) ∈ l → (k, v') ∈ l → v = v' := by
  intro l
  induction l with
  | nil =>
    intro _ k v v' h1 _
    simp at h1
  | cons p rest ih =>
    intro hnd k v v' h1 h2
    simp only [List.map_cons, List.nodup_cons] at hnd
    rcases List.mem_cons.mp h1 with he1 | hm1 <;> rcases List.mem_cons.mp h2 with he2 | hm2
    · rw [← he2] at he1
      exact congrArg Prod.snd he1
    · exfalso
      apply hnd.1
      rw [← congrArg Prod.fst he1]
      exact List.mem_map.mpr ⟨(k, v'), hm2, rfl⟩
    · exfalso
      apply hnd.1
      rw [← congrArg Prod.fst he2]
      exact List.mem_map.mpr ⟨(k, v), hm1, rfl⟩
    · exact ih hnd.2 hm1 hm2

theorem build_from_skip_entries (env : Env) :
    ∀ (pres : List (String × PyVal)) (d d' : List (String × SubEntry)) (k : String),
      build_payload_from env d pres = Except.ok d' →
      (∀ v, (k, v) ∈ pres → v = PyVal.none ∨
        ∀ t, dget? (slug_to_test env) k = some t →
          t.type ∈ CALCULATED_TEST_TYPES ∨ (t.type = "upload" ∧ pyTruthy v = false)) →
      dget? d' k = dget? d k := by
  intro pres
  induction pres with
  | nil =>
    intro d d' k h _
    rw [← Except.ok.inj h]
  | cons sv rest ih =>
    intro d d' k h hnoop
    simp only [build_payload_from] at h
    cases hs : payload_step env d sv with
    | error e =>
      rw [hs, ebind_error] at h
      exact Except.noConfusion h
    | ok d1 =>
      rw [hs, ebind_ok] at h
      have hrest := ih d1 d' k h (fun v hv => hnoop v (List.mem_cons_of_mem _ hv))
      rw [hrest]
      by_cases hkk : sv.1 = k
      · have hsv : (k, sv.2) = sv := by rw [← hkk]
        have hk2 := hnoop sv.2 (by rw [hsv]; exact List.mem_cons_self _ _)
        obtain ⟨t, hlook, hmem, hslug, hcase⟩ := payload_step_cases env d sv d1 hs
        rcases hcase with ⟨_, rfl⟩ | ⟨_, _, _, _, rfl⟩ |
          ⟨att, hc1, hc2, hu, htr, hf, rfl⟩ | ⟨hc1, hc2, hu, rfl⟩
        · rfl
        · rfl
        · exfalso
          rcases hk2 with hnone | hstep
          · exact hc2 hnone
          · rcases hstep t (by rw [hkk] at hlook; exact hlook) with hc | ⟨_, hfalse⟩
            · exact hc1 hc
            · rw [htr] at hfalse
              exact Bool.noConfusion hfalse
        · exfalso
          rcases hk2 with hnone | hstep
          · exact hc2 hnone
          · rcases hstep t (by rw [hkk] at hlook; exact hlook) with hc | ⟨hup, _⟩
            · exact hc1 hc
            · exact hu hup
      · obtain ⟨t, _, _, _, hcase⟩ := payload_step_cases env d sv d1 hs
        rcases hcase with ⟨_, rfl⟩ | ⟨_, _, _, _, rfl⟩ | ⟨att, _, _, _, _, _, rfl⟩ |
          ⟨_, _, _, rfl⟩
        · rfl
        · rfl
        · rw [dget?_dinsert, if_neg hkk]
        · rw [dget?_dinsert, if_neg hkk]

theorem initial_payload_entry {env : Env} {k : String} {e : SubEntry}
    (h : dget? (initial_payload env) k = some e) :
    e = SubEntry.skip ∧ ∃ t ∈ env.tests, t.slug = k ∧ t.type ∉ CALCULATED_TEST_TYPES := by
  rcases dget?_foldl_dinsert Test.slug (fun _ => SubEntry.skip)
      (env.tests.filter (fun t => decide (t.type ∉ CALCULATED_TEST_TYPES))) [] k e h with
    ⟨x, hx, h1, h2⟩ | h'
  · have hm := List.mem_filter.mp hx
    exact ⟨h2.symm, x, hm.1, h1, by simpa using hm.2⟩
  · simp [dget?] at h'

theorem initial_payload_isSome {env : Env} {t : Test} (ht : t ∈ env.tests)
    (hc : t.type ∉ CALCULATED_TEST_TYPES) :
    (dget? (initial_payload env) t.slug).isSome :=
  dget?_foldl_dinsert_isSome Test.slug (fun _ => SubEntry.skip)
    (env.tests.filter (fun t => decide (t.type ∉ CALCULATED_TEST_TYPES))) [] t.slug
    (Or.inl ⟨t, List.mem_filter.mpr ⟨ht, by simpa⟩, rfl⟩)

/-- Claim C3: for every replay, every test currently in the assignment's
test list whose type is not calculated gets a payload entry, defaulted to
skipped; an entry is overwritten with a value only where a non-null
historical decoded value exists for that slug; a test added to the test
list since the historical session (its slug absent from the decoded
results) is submitted as skipped; and a test whose historical instance
decoded to null remains submitted as skipped. -/
theorem payload_defaults_and_overwrites (env : Env) (pres : List (String × PyVal))
    (payload : List (String × SubEntry))
    (hok : build_payload env pres = Except.ok payload) :
    (∀ t ∈ env.tests, t.type ∉ CALCULATED_TEST_TYPES →
      ∃ e, dget? payload t.slug = some e) ∧
    (∀ k e, dget? payload k = some e → e ≠ SubEntry.skip →
      ∃ v, (k, v) ∈ pres ∧ v ≠ PyVal.none) ∧
    (∀ t ∈ env.tests, t.type ∉ CALCULATED_TEST_TYPES → t.slug ∉ pres.map Prod.fst →
      dget? payload t.slug = some SubEntry.skip) ∧
    ((pres.map Prod.fst).Nodup →
      ∀ t ∈ env.tests, t.type ∉ CALCULATED_TEST_TYPES → (t.slug, PyVal.none) ∈ pres →
      dget? payload t.slug = some SubEntry.skip) := by
  refine ⟨?_, ?_, ?_, ?_⟩
  · intro t ht hc
    exact Option.isSome_iff_exists.mp
      (build_from_isSome env pres _ payload t.slug hok (initial_payload_isSome ht hc))
  · intro k e he hne
    rcases build_from_entry_source env pres _ payload k e hok he with h1 | ⟨v, t, hv, hnn, _⟩
    · exact absurd (initial_payload_entry h1).1 hne
    · exact ⟨v, hv, hnn⟩
  · intro t ht hc hnotin
    rw [build_from_untouched env pres _ payload t.slug hok hnotin]
    obtain ⟨e, he⟩ := Option.isSome_iff_exists.mp (initial_payload_isSome ht hc)
    rw [he, (initial_payload_entry he).1]
  · intro hnd t ht hc hmemnone
    have hnoop : ∀ v, (t.slug, v) ∈ pres → v = PyVal.none ∨
        ∀ t', dget? (slug_to_test env) t.slug = some t' →
          t'.type ∈ CALCULATED_TEST_TYPES ∨ (t'.type = "upload" ∧ pyTruthy v = false) :=
      fun v hv => Or.inl (nodup_keys_unique hnd hv hmemnone)
    rw [build_from_skip_entries env pres _ payload t.slug hok hnoop]
    obtain ⟨e, he⟩ := Option.isSome_iff_exists.mp (initial_payload_isSome ht hc)
    rw [he, (initial_payload_entry he).1]

/-- Witness for C3: the test list has a simple test a (historical value 5),
a simple test b added since the historical session, a simple test c whose
historical instance decoded to null, and a composite test d; the payload
maps a to value 5, b and c to skipped, and gives d no entry. -/
theorem payload_defaults_and_overwrites_witness :
    (∃ e, dget? [("a", SubEntry.val (PyVal.num 5)), ("b", SubEntry.skip),
      ("c", SubEntry.skip)] "b" = some e) ∧
    dget? [("a", SubEntry.val (PyVal.num 5)), ("b", SubEntry.skip),
      ("c", SubEntry.skip)] "b" = some SubEntry.skip ∧
    dget? [("a", SubEntry.val (PyVal.num 5)), ("b", SubEntry.skip),
      ("c", SubEntry.skip)] "c" = some SubEntry.skip ∧
    ∃ v, ("a", v) ∈ [("a", PyVal.num 5), ("c", PyVal.none)] ∧ v ≠ PyVal.none := by
  have h := payload_defaults_and_overwrites
    ⟨[⟨"a", "A", "simple", false, "T1"⟩, ⟨"b", "B", "simple", false, "T2"⟩,
      ⟨"c", "C", "simple", false, "T3"⟩, ⟨"d", "D", "composite", false, "T4"⟩],
      [], [], []⟩
    [("a", PyVal.num 5), ("c", PyVal.none)]
    [("a", SubEntry.val (PyVal.num 5)), ("b", SubEntry.skip), ("c", SubEntry.skip)]
    rfl
  refine ⟨h.1 ⟨"b", "B", "simple", false, "T2"⟩ (by decide) (by decide), ?_, ?_, ?_⟩
  · exact h.2.2.1 ⟨"b", "B", "simple", false, "T2"⟩ (by decide) (by decide) (by decide)
  · exact h.2.2.2 (by decide) ⟨"c", "C", "simple", false, "T3"⟩ (by decide) (by decide)
      (by decide)
  · exact h.2.1 "a" (SubEntry.val (PyVal.num 5)) (by decide) (by decide)

theorem slug_to_test_self {env : Env} {t : Test} (ht : t ∈ env.tests)
    (hnd : (env.tests.map Test.slug).Nodup) :
    dget? (slug_to_test env) t.slug = some t := by
  obtain ⟨t', ht'⟩ := Option.isSome_iff_exists.mp (slug_to_test_isSome ht)
  obtain ⟨hmem', hslug'⟩ := slug_to_test_spec ht'
  have heq : t' = t := List.inj_on_of_nodup_map hnd hmem' ht hslug'
  rw [ht', heq]

theorem build_from_upload_entry (env : Env) :
    ∀ (pres : List (String × PyVal)) (d d' : List (String × SubEntry))
      (k : String) (v : PyVal) (t : Test),
      build_payload_from env d pres = Except.ok d' → (pres.map Prod.fst).Nodup →
      (k, v) ∈ pres → dget? (slug_to_test env) k = some t → t.type = "upload" →
      pyTruthy v = true →
      ∃ att, fetch_attachment env v = Except.ok att ∧
        dget? d' k = some (SubEntry.upload (b64decode_decode att.content)
          att.label "base64") := by
  intro pres
  induction pres with
  | nil =>
    intro d d' k v t _ _ hv
    simp at hv
  | cons sv rest ih =>
    intro d d' k v t h hnd hv hlook htype htruthy
    simp only [build_payload_from] at h
    cases hs : payload_step env d sv with
    | error e =>
      rw [hs, ebind_error] at h
      exact Except.noConfusion h
    | ok d1 =>
      rw [hs, ebind_ok] at h
      simp only [List.map_cons, List.nodup_cons] at hnd
      rcases List.mem_cons.mp hv with he | hm
      · -- the head entry is (k, v) itself
        have hk1 : sv.1 = k := by rw [← he]
        have hv2 : sv.2 = v := by rw [← he]
        obtain ⟨t0, hlook0, _, _, hcase⟩ := payload_step_cases env d sv d1 hs
        have ht0 : t0 = t := by
          rw [hk1] at hlook0
          rw [hlook0] at hlook
          exact Option.some.inj hlook
        have hnotin : k ∉ rest.map Prod.fst := by
          rw [← hk1]
          exact hnd.1
        rw [build_from_untouched env rest d1 d' k h hnotin]
        rcases hcase with ⟨hno, rfl⟩ | ⟨_, _, _, hfalse, rfl⟩ |
          ⟨att, _, _, _, _, hf, rfl⟩ | ⟨_, _, hnup, rfl⟩
        · exfalso
          rcases hno with hc | hn
          · rw [ht0, htype] at hc
            exact absurd hc (by decide)
          · rw [hv2] at hn
            rw [hn] at htruthy
            simp [pyTruthy] at htruthy
        · exfalso
          rw [hv2, htruthy] at hfalse
          exact Bool.noConfusion hfalse
        · refine ⟨att, ?_, ?_⟩
          · rw [← hv2]
            exact hf
          · rw [dget?_dinsert, if_pos hk1]
        · exfalso
          rw [ht0, htype] at hnup
          exact hnup rfl
      · -- the entry is further down; the head step cannot clobber key k
        have hkne : sv.1 ≠ k := by
          intro he
          apply hnd.1
          rw [he]
          exact List.mem_map.mpr ⟨(k, v), hm, rfl⟩
        exact ih d1 d' k v t h hnd.2 hm hlook htype htruthy

-- Concrete setup for C4: one upload test; the historical decoded value is
-- the non-null but falsy string "".
def envC4 : Env :=
  ⟨[⟨"u", "Upload test", "upload", false, "T1"⟩], [⟨"U1", "T1"⟩], [], []⟩

/-- Counterexample to C4.  The replay guards the attachment fetch with
Python truthiness (`if attachment_id:`), not a null check: for an
upload-type test whose historical decoded value is the non-null falsy
string "", no attachment is fetched and the submission entry remains
skipped, not an upload entry carrying attachment content as the claim as
stated requires for every non-null value. -/
theorem upload_nonnull_falsy_counterexample :
    build_payload envC4 [("u", PyVal.str "")] = Except.ok [("u", SubEntry.skip)] ∧
    PyVal.str "" ≠ PyVal.none ∧ pyTruthy (PyVal.str "") = false := by
  exact ⟨rfl, by decide, by decide⟩

/-- Claim C4 amended: for every upload-type test whose historical decoded
value (an attachment id) is non-null AND truthy (non-empty, nonzero), the
replay fetches that attachment and the submission entry for that test
carries the base64-decoded attachment content as the value, the
attachment's original filename (its label), and encoding "base64"; if the
attachment id is null - or any other falsy value, such as "" - the
submission entry for that test remains skipped. -/
theorem upload_replay_entries (env : Env) (pres : List (String × PyVal))
    (payload : List (String × SubEntry)) (t : Test) (v : PyVal)
    (hok : build_payload env pres = Except.ok payload)
    (hmem : t ∈ env.tests) (htype : t.type = "upload")
    (hslugs : (env.tests.map Test.slug).Nodup)
    (hkeys : (pres.map Prod.fst).Nodup)
    (hv : (t.slug, v) ∈ pres) :
    (pyTruthy v = true →
      ∃ att, fetch_attachment env v = Except.ok att ∧
        dget? payload t.slug = some (SubEntry.upload (b64decode_decode att.content)
          att.label "base64")) ∧
    (pyTruthy v = false → dget? payload t.slug = some SubEntry.skip) := by
  have hlook : dget? (slug_to_test env) t.slug = some t := slug_to_test_self hmem hslugs
  constructor
  · intro htruthy
    exact build_from_upload_entry env pres _ payload t.slug v t hok hkeys hv hlook
      htype htruthy
  · intro hfalsy
    have hnc : t.type ∉ CALCULATED_TEST_TYPES := by
      rw [htype]
      decide
    have hnoop : ∀ v', (t.slug, v') ∈ pres → v' = PyVal.none ∨
        ∀ t', dget? (slug_to_test env) t.slug = some t' →
          t'.type ∈ CALCULATED_TEST_TYPES ∨ (t'.type = "upload" ∧ pyTruthy v' = false) := by
      intro v' hv'
      have hveq : v' = v := nodup_keys_unique hkeys hv' hv
      right
      intro t' hlook'
      have ht' : t' = t := by
        rw [hlook] at hlook'
        exact (Option.some.inj hlook').symm
      rw [ht', htype, hveq]
      exact Or.inr ⟨rfl, hfalsy⟩
    rw [build_from_skip_entries env pres _ payload t.slug hok hnoop]
    obtain ⟨e, he⟩ := Option.isSome_iff_exists.mp (initial_payload_isSome hmem hnc)
    rw [he, (initial_payload_entry he).1]

-- Concrete setup for the C4 witness: the attachment store serves id "9"
-- with base64 content "QQ==" (decoding to "A") and label "file.txt".
def envC4b : Env :=
  ⟨[⟨"u", "Upload test", "upload", false, "T1"⟩], [⟨"U1", "T1"⟩],
    [(PyVal.str "9", ⟨"QQ==", "file.txt"⟩)], []⟩

/-- Witness for the amended C4 theorem: with a truthy attachment id "9" the
payload entry is the fetched attachment's decoded content "A" with its
label and encoding base64. -/
theorem upload_replay_entries_witness :
    ∃ att, fetch_attachment envC4b (PyVal.str "9") = Except.ok att ∧
      dget? [("u", SubEntry.upload "A" "file.txt" "base64")] "u" =
        some (SubEntry.upload (b64decode_decode att.content) att.label "base64") :=
  (upload_replay_entries envC4b [("u", PyVal.str "9")]
    [("u", SubEntry.upload "A" "file.txt" "base64")]
    ⟨"u", "Upload test", "upload", false, "T1"⟩ (PyVal.str "9")
    rfl (by decide) rfl (by decide) (by decide) (by decide)).1 (by decide)

/-! Claim C1 machinery. -/

theorem repeat_one_ok_inv (env : Env) (prev : Session) (resp : PostResponse)
    {pres : List (String × PyVal)} {payload : List (String × SubEntry)}
    {table : List (List PyVal)}
    (h : repeat_one env prev resp = Except.ok (pres, payload, table)) :
    results_from_session env prev = Except.ok pres ∧
    build_payload env pres = Except.ok payload ∧
    ∃ calcres new_session new_results,
      previous_calculated_results env pres = Except.ok calcres ∧
      perform_session payload resp env = Except.ok new_session ∧
      results_from_session env new_session = Except.ok new_results ∧
      generate_results_table env prev pres new_session new_results =
        Except.ok table := by
  unfold repeat_one at h
  cases h1 : results_from_session env prev with
  | error e => rw [h1, ebind_error] at h; exact Except.noConfusion h
  | ok pres0 =>
    rw [h1, ebind_ok] at h
    cases h2 : previous_calculated_results env pres0 with
    | error e => rw [h2, ebind_error] at h; exact Except.noConfusion h
    | ok calcres0 =>
      rw [h2, ebind_ok] at h
      cases h3 : build_payload env pres0 with
      | error e => rw [h3, ebind_error] at h; exact Except.noConfusion h
      | ok payload0 =>
        rw [h3, ebind_ok] at h
        cases h4 : perform_session payload0 resp env with
        | error e => rw [h4, ebind_error] at h; exact Except.noConfusion h
        | ok ns =>
          rw [h4, ebind_ok] at h
          cases h5 : results_from_session env ns with
          | error e => rw [h5, ebind_error] at h; exact Except.noConfusion h
          | ok nr =>
            rw [h5, ebind_ok] at h
            cases h6 : generate_results_table env prev pres0 ns nr with
            | error e => rw [h6, ebind_error] at h; exact Except.noConfusion h
            | ok table0 =>
              rw [h6, ebind_ok] at h
              obtain ⟨e1, e2, e3⟩ : pres0 = pres ∧ payload0 = payload ∧ table0 = table := by
                simpa [Prod.ext_iff] using Except.ok.inj h
              subst e1
              subst e2
              subst e3
              exact ⟨rfl, h3, calcres0, ns, nr, h2, h4, h5, h6⟩

theorem table_rows_from_mem (env : Env) (new_results : List (String × PyVal)) :
    ∀ (l : List (String × PyVal)) (acc T : List (List PyVal)),
      table_rows_from env new_results l acc = Except.ok T →
      (∀ r ∈ acc, r ∈ T) ∧
      ∀ sv ∈ l, ∃ t, dget? (slug_to_test env) sv.1 = some t ∧
        table_row t sv.2 ((dget? new_results sv.1).getD (PyVal.str "")) ∈ T := by
  intro l
  induction l with
  | nil =>
    intro acc T h
    have he := Except.ok.inj h
    subst he
    exact ⟨fun r hr => hr, fun sv hsv => absurd hsv (List.not_mem_nil _)⟩
  | cons sv rest ih =>
    intro acc T h
    simp only [table_rows_from] at h
    cases hlook : dget? (slug_to_test env) sv.1 with
    | none =>
      rw [hlook, olookup_none] at h
      exact Except.noConfusion h
    | some t =>
      rw [hlook, olookup_some] at h
      obtain ⟨hacc, hrows⟩ := ih _ T h
      refine ⟨fun r hr => hacc r (List.mem_append_left _ hr), ?_⟩
      intro sv' hsv'
      rcases List.mem_cons.mp hsv' with he | hm
      · subst he
        exact ⟨t, hlook, hacc _ (List.mem_append_right _ (List.mem_singleton.mpr rfl))⟩
      · exact hrows sv' hm

theorem calc_results_mem (env : Env) :
    ∀ (l acc out : List (String × PyVal)),
      calc_results_from env l acc = Except.ok out →
      ∀ sv ∈ out, sv ∈ acc ∨ (sv ∈ l ∧ ∃ t, dget? (slug_to_test env) sv.1 = some t ∧
        t.type ∈ CALCULATED_TEST_TYPES) := by
  intro l
  induction l with
  | nil =>
    intro acc out h sv hsv
    rw [Except.ok.inj h]
    exact Or.inl hsv
  | cons sv0 rest ih =>
    intro acc out h sv hsv
    simp only [calc_results_from] at h
    cases hlook : dget? (slug_to_test env) sv0.1 with
    | none =>
      rw [hlook, olookup_none] at h
      exact Except.noConfusion h
    | some t =>
      rw [hlook, olookup_some] at h
      by_cases hc : t.type ∈ CALCULATED_TEST_TYPES
      · rw [if_pos hc] at h
        rcases ih _ out h sv hsv with hacc | ⟨hmem, hfound⟩
        · rcases mem_dinsert hacc with h1 | h1
          · exact Or.inl h1
          · refine Or.inr ⟨?_, t, ?_, hc⟩
            · rw [h1, Prod.mk.eta]
              exact List.mem_cons_self _ _
            · rw [h1]
              exact hlook
        · exact Or.inr ⟨List.mem_cons_of_mem _ hmem, hfound⟩
      · rw [if_neg hc] at h
        rcases ih _ out h sv hsv with hacc | ⟨hmem, hfound⟩
        · exact Or.inl hacc
        · exact Or.inr ⟨List.mem_cons_of_mem _ hmem, hfound⟩

theorem payload_no_calc_keys (env : Env) (pres : List (String × PyVal))
    (payload : List (String × SubEntry))
    (hok : build_payload env pres = Except.ok payload)
    (hslugs : (env.tests.map Test.slug).Nodup) {t : Test}
    (ht : t ∈ env.tests) (hc : t.type ∈ CALCULATED_TEST_TYPES) :
    dget? payload t.slug = Option.none := by
  cases h : dget? payload t.slug with
  | none => rfl
  | some e =>
    exfalso
    rcases build_from_entry_source env pres _ payload t.slug e hok h with h1 |
      ⟨v, t', _, _, hlook, hmem', hnc, _⟩
    · obtain ⟨-, t', hmem', hslug', hnc⟩ := initial_payload_entry h1
      have : t' = t := List.inj_on_of_nodup_map hslugs hmem' ht hslug'
      rw [this] at hnc
      exact hnc hc
    · obtain ⟨hmem2, hslug2⟩ := slug_to_test_spec hlook
      have : t' = t := List.inj_on_of_nodup_map hslugs hmem2 ht hslug2
      rw [this] at hnc
      exact hnc hc

/-- Claim C1: for every historical session replayed by repeat_qa, no test
whose type is calculated (composite, scomposite, rlookup) appears as a key
of the submission payload posted to create the new session, yet every
calculated test decoded from the historical session (each entry of the
previous_calculated_results dictionary) still appears as a row of the
returned comparison table, with its decoded historical value as the
Previous Result cell. -/
theorem calc_tests_never_submitted_but_compared (env : Env)
    (prev : Session) (resp : PostResponse)
    (pres : List (String × PyVal)) (payload : List (String × SubEntry))
    (table : List (List PyVal)) (calcres : List (String × PyVal))
    (hslugs : (env.tests.map Test.slug).Nodup)
    (hone : repeat_one env prev resp = Except.ok (pres, payload, table))
    (hcalc : previous_calculated_results env pres = Except.ok calcres) :
    (∀ t ∈ env.tests, t.type ∈ CALCULATED_TEST_TYPES →
      dget? payload t.slug = Option.none) ∧
    (∀ sv ∈ calcres, ∃ t, dget? (slug_to_test env) sv.1 = some t ∧
      t.type ∈ CALCULATED_TEST_TYPES ∧
      ∃ nv, table_row t sv.2 nv ∈ table) := by
  obtain ⟨hres, hpay, calcres0, ns, nr, hcalc0, hperf, hnres, htab⟩ :=
    repeat_one_ok_inv env prev resp hone
  constructor
  · intro t ht hc
    exact payload_no_calc_keys env pres payload hpay hslugs ht hc
  · intro sv hsv
    rcases calc_results_mem env pres [] calcres hcalc sv hsv with h1 | ⟨hmem, t, hlook, hct⟩
    · simp at h1
    · unfold generate_results_table at htab
      obtain ⟨-, hrows⟩ := table_rows_from_mem env nr pres (table_header prev ns) table htab
      obtain ⟨t', hlook', hrow⟩ := hrows sv hmem
      have ht' : t' = t := by
        rw [hlook] at hlook'
        exact (Option.some.inj hlook').symm
      rw [ht'] at hrow
      exact ⟨t, hlook, hct, _, hrow⟩

-- Concrete scenario for the C1 witness: tests temperature (simple),
-- pressure (simple) and ktp (composite); the historical session decoded to
-- 22, 750 and 57, and the server answers the POST with 201 and
-- serves the created session at "NS".
def tiNum (v : ℚ) (uti : String) : TestInstance :=
  ⟨false, PyVal.num v, PyVal.none, PyVal.none, PyVal.none, "", "", uti⟩

def prevC1 : Session :=
  ⟨"PS", "2024-01-01", [tiNum 22 "U1", tiNum 750 "U2", tiNum 57 "U3"]⟩

def newSessC1 : Session :=
  ⟨"NS", "2024-01-02", [tiNum 22 "U1", tiNum 750 "U2", tiNum 57 "U3"]⟩

def envC1 : Env :=
  ⟨[⟨"temperature", "Temperature", "simple", false, "T1"⟩,
    ⟨"pressure", "Pressure", "simple", false, "T2"⟩,
    ⟨"ktp", "kTP", "composite", false, "T3"⟩],
   [⟨"U1", "T1"⟩, ⟨"U2", "T2"⟩, ⟨"U3", "T3"⟩],
   [],
   [("NS", newSessC1)]⟩

def respC1 : PostResponse := ⟨201, Option.none, some "NS"⟩

def presC1 : List (String × PyVal) :=
  [("temperature", PyVal.num 22), ("pressure", PyVal.num 750),
   ("ktp", PyVal.num 57)]

def payloadC1 : List (String × SubEntry) :=
  [("temperature", SubEntry.val (PyVal.num 22)),
   ("pressure", SubEntry.val (PyVal.num 750))]

def tableC1 : List (List PyVal) :=
  [[PyVal.str "Previous Session Link", PyVal.str "PS"],
   [PyVal.str "Previous Session Date", PyVal.str "2024-01-01"],
   [PyVal.str "New Session Link", PyVal.str "NS"],
   [PyVal.str "New Session Date", PyVal.str "2024-01-02"],
   [PyVal.str "Test", PyVal.str "Previous Result", PyVal.str "New Result",
    PyVal.str "Equal"],
   [PyVal.str "Temperature", PyVal.num 22, PyVal.num 22, PyVal.str "True"],
   [PyVal.str "Pressure", PyVal.num 750, PyVal.num 750, PyVal.str "True"],
   [PyVal.str "kTP", PyVal.num 57, PyVal.num 57, PyVal.str "True"]]

def calcresC1 : List (String × PyVal) := [("ktp", PyVal.num 57)]

/-- Witness for C1 at the concrete temperature/pressure/ktp replay: the
composite test ktp has no key in the posted payload, yet its decoded
historical value 57 appears as a comparison-table row. -/
theorem calc_tests_never_submitted_but_compared_witness :
    dget? payloadC1 "ktp" = Option.none ∧
    ∃ t, dget? (slug_to_test envC1) "ktp" = some t ∧
      t.type ∈ CALCULATED_TEST_TYPES ∧
      ∃ nv, table_row t (PyVal.num 57) nv ∈ tableC1 := by
  have h := calc_tests_never_submitted_but_compared envC1 prevC1 respC1
    presC1 payloadC1 tableC1 calcresC1 (by decide) (by rfl) (by rfl)
  exact ⟨h.1 ⟨"ktp", "kTP", "composite", false, "T3"⟩ (by simp [envC1]) (by decide),
    h.2 ("ktp", PyVal.num 57) (List.mem_singleton.mpr rfl)⟩
